import Mathlib

/-
Verification development for the Code-Magic-Visualizer execution subsystem.

Shallow embedding of:
  - src/runtime/virtualizer.js   (runCode: dispatch, emit, budgetedEmit, per-language branches)
  - the iframe JS runner (runJavaScript: host message handler, watchdog timer, stop/cleanup)
  - src/python/executor.js       (PythonExecutor host wrapper and the pyodide worker protocol)
  - server/index.js              (snippet persistence endpoints)

Host-side asynchrony is modelled as folds over explicit lists of happenings
(message deliveries, timer firings, promise resolutions, stop calls); the
single-threaded event loop means each happening is processed atomically, and
microtask continuations of a message delivery (the executor run-promise
resolution and its finally callback) are merged into the step for that
delivery, since they drain before the next task runs.
-/

namespace CMV

/-- Canonical run event union emitted by the unified runner
(virtualizer.js event schema: init, start, stdout, stderr, log, result,
error, timeout, done).  The constant runId/language fields are omitted. -/
inductive REvent where
  | init : REvent
  | start : REvent
  | stdout (text level : String) : REvent
  | stderr (text level : String) : REvent
  | log (level text : String) : REvent
  | result (value : String) : REvent
  | error (message : String) (stack : Option String) : REvent
  | timeout (message : String) : REvent
  | done : REvent
deriving DecidableEq, Repr

/-- Recognizer for init events. -/
def REvent.isInit : REvent → Bool
  | .init => true
  | _ => false

/-- Recognizer for start events. -/
def REvent.isStart : REvent → Bool
  | .start => true
  | _ => false

/-- Recognizer for terminal events (done / error / timeout). -/
def REvent.isTerminal : REvent → Bool
  | .done => true
  | .error _ _ => true
  | .timeout _ => true
  | _ => false

/-- Recognizer for done events. -/
def REvent.isDone : REvent → Bool
  | .done => true
  | _ => false

/-- Recognizer for timeout events. -/
def REvent.isTimeout : REvent → Bool
  | .timeout _ => true
  | _ => false

/-- Recognizer for the truncation warning emitted by budgetedEmit
(emit('log', { level: 'warn', text: '[output truncated]' })). -/
def REvent.isTruncWarn : REvent → Bool
  | .log "warn" "[output truncated]" => true
  | _ => false

/-- Recognizer for budget-gated output events (the stdout/stderr-mapped
events produced through budgetedEmit). -/
def REvent.isOutput : REvent → Bool
  | .stdout _ _ => true
  | .stderr _ _ => true
  | _ => false

/-- UTF-8 byte length of a string, as computed by
new TextEncoder().encode(s).length in the source. -/
def utf8Len (s : String) : Nat := s.utf8ByteSize

/-- Shared per-run output budget state of runCode
(virtualizer.js lines 29-30: totalLogBytes, truncatedNotified). -/
structure Budget where
  total : Nat
  truncNotified : Bool
deriving DecidableEq, Repr

/-- Initial budget state (totalLogBytes = 0, truncatedNotified = false). -/
def Budget.start : Budget := { total := 0, truncNotified := false }

/-- Which of the two budget-gated event kinds budgetedEmit is asked to emit. -/
inductive OutKind where
  | stdout
  | stderr
deriving DecidableEq, Repr

/-- Build the budget-gated event for a kind, text and level. -/
def OutKind.mk : OutKind → String → String → REvent
  | .stdout, t, l => REvent.stdout t l
  | .stderr, t, l => REvent.stderr t l

/-- Shallow embedding of budgetedEmit (virtualizer.js lines 31-41):
if totalLogBytes + bytes <= maxLogBytes the text is forwarded and counted;
otherwise, if not yet notified, a single truncation warning is emitted;
otherwise nothing is emitted. -/
def budgetedEmit (maxLogBytes : Nat) (b : Budget) (k : OutKind)
    (text level : String) : Budget × List REvent :=
  let bytes := utf8Len text
  if b.total + bytes ≤ maxLogBytes then
    ({ b with total := b.total + bytes }, [k.mk text level])
  else if !b.truncNotified then
    ({ b with truncNotified := true }, [REvent.log "warn" "[output truncated]"])
  else
    (b, [])

/-- Fold of budgetedEmit over a list of (kind, text, level) outputs,
collecting the emitted events in order. -/
def budgetRun (maxLogBytes : Nat) (b : Budget) :
    List (OutKind × String × String) → Budget × List REvent
  | [] => (b, [])
  | (k, t, l) :: rest =>
    let (b1, evs1) := budgetedEmit maxLogBytes b k t l
    let (b2, evs2) := budgetRun maxLogBytes b1 rest
    (b2, evs1 ++ evs2)

/-- Cumulative UTF-8 byte size of the text carried by the stdout/stderr
output events of a stream (the quantity budgetedEmit accumulates in
totalLogBytes). -/
def outBytes : List REvent → Nat
  | [] => 0
  | REvent.stdout t _ :: rest => utf8Len t + outBytes rest
  | REvent.stderr t _ :: rest => utf8Len t + outBytes rest
  | _ :: rest => outBytes rest

/-! Iframe JS runner (runJavaScript in the source): host-side message
handler, watchdog timer and stop, modelled as a fold over happenings. -/

/-- Data carried by a window message reaching the runJavaScript handler.
Messages that fail the strict filter (not __runner, or wrong token) are
modelled by the foreign constructor.  A log message carries the console
level and the already-stringified argument list. -/
inductive SandboxData where
  | log (level : String) (args : List String)
  | error (message stack : String)
  | start
  | done
  | foreign
deriving DecidableEq, Repr

/-- Host-side happenings for one runJavaScript invocation: a window
message delivery, the watchdog timer firing, or a stop() call. -/
inductive Jsact where
  | msg (d : SandboxData)
  | timerFire
  | stop
deriving DecidableEq, Repr

/-- Host state of runJavaScript: finished flag, log-byte budget state,
whether the message listener is still installed (cleanup removes it) and
whether the watchdog timer is still armed (clearTimeout disarms it). -/
structure JsState where
  finished : Bool
  totalLogBytes : Nat
  truncNotified : Bool
  listenerOn : Bool
  timerOn : Bool
deriving DecidableEq, Repr

/-- State right after runJavaScript set up the iframe, listener and timer. -/
def JsState.start : JsState :=
  { finished := false, totalLogBytes := 0, truncNotified := false,
    listenerOn := true, timerOn := true }

/-- Inner runner events (the evt values runJavaScript passes to its
callback): init, start, log, error, timeout, done. -/
inductive JEvent where
  | init
  | start
  | log (level text : String)
  | error (message stack : String)
  | timeout (message : String)
  | done
deriving DecidableEq, Repr

/-- Shallow embedding of the handleMsg listener of runJavaScript: drops
messages once the listener is removed, drops foreign messages and anything
after finished; budgets log text by UTF-8 bytes with a one-shot truncation
warning; error and done emit, set finished, clear the timer and clean up. -/
def jsHandleMsg (maxLogBytes : Nat) (s : JsState) :
    SandboxData → JsState × List JEvent
  | .foreign => (s, [])
  | .log level args =>
    if s.finished then (s, [])
    else
      let text := String.intercalate " " args
      let bytes := utf8Len text
      if s.totalLogBytes + bytes ≤ maxLogBytes then
        ({ s with totalLogBytes := s.totalLogBytes + bytes },
         [JEvent.log level text])
      else if !s.truncNotified then
        ({ s with truncNotified := true },
         [JEvent.log "warn" "[output truncated]"])
      else (s, [])
  | .error message stack =>
    if s.finished then (s, [])
    else
      ({ s with finished := true, timerOn := false, listenerOn := false },
       [JEvent.error message stack])
  | .start =>
    if s.finished then (s, []) else (s, [JEvent.start])
  | .done =>
    if s.finished then (s, [])
    else
      ({ s with finished := true, timerOn := false, listenerOn := false },
       [JEvent.done])

/-- One host-side step of runJavaScript.  A message is handled only while
the listener is installed; the timer fires only while armed, emits timeout
when not finished and destroys the context; stop clears the timer and
removes the listener without emitting anything. -/
def jsStep (maxLogBytes timeoutMs : Nat) (s : JsState) :
    Jsact → JsState × List JEvent
  | .msg d => if s.listenerOn then jsHandleMsg maxLogBytes s d else (s, [])
  | .timerFire =>
    if s.timerOn then
      if s.finished then ({ s with timerOn := false }, [])
      else
        ({ s with timerOn := false, finished := true, listenerOn := false },
         [JEvent.timeout ("Execution timed out after " ++ toString timeoutMs ++ "ms")])
    else (s, [])
  | .stop => ({ s with timerOn := false, listenerOn := false }, [])

/-- Fold of jsStep over a happening list, collecting inner runner events. -/
def jsGo (maxLogBytes timeoutMs : Nat) (s : JsState) :
    List Jsact → JsState × List JEvent
  | [] => (s, [])
  | a :: rest =>
    let (s1, evs1) := jsStep maxLogBytes timeoutMs s a
    let (s2, evs2) := jsGo maxLogBytes timeoutMs s1 rest
    (s2, evs1 ++ evs2)

/-- Full inner event stream of one runJavaScript invocation: the runner
emits init synchronously at call time, then the happenings unfold. -/
def jsRunnerEvents (maxLogBytes timeoutMs : Nat) (acts : List Jsact) :
    List JEvent :=
  JEvent.init :: (jsGo maxLogBytes timeoutMs JsState.start acts).2

/-! Unified runner (runCode in virtualizer.js), JS branch: the callback
given to runJavaScript maps inner events to canonical events, sending log
text through the shared budget as stdout and re-emitting the raw log. -/

/-- Shallow embedding of the JS-branch callback of runCode (virtualizer.js
lines 47-57): init, start, error, done, timeout are re-emitted; a log event
is forwarded through budgetedEmit as stdout and then re-emitted as a raw
log event unconditionally. -/
def virtMapJs (maxLogBytes : Nat) (b : Budget) :
    JEvent → Budget × List REvent
  | .init => (b, [REvent.init])
  | .start => (b, [REvent.start])
  | .log level text =>
    let (b1, evs) := budgetedEmit maxLogBytes b .stdout text level
    (b1, evs ++ [REvent.log level text])
  | .error message stack => (b, [REvent.error message (some stack)])
  | .done => (b, [REvent.done])
  | .timeout message => (b, [REvent.timeout message])

/-- Fold of virtMapJs over inner runner events. -/
def virtMapJsAll (maxLogBytes : Nat) (b : Budget) :
    List JEvent → Budget × List REvent
  | [] => (b, [])
  | e :: rest =>
    let (b1, evs1) := virtMapJs maxLogBytes b e
    let (b2, evs2) := virtMapJsAll maxLogBytes b1 rest
    (b2, evs1 ++ evs2)

/-- Canonical event stream of a runCode invocation dispatched to the JS
branch: runCode emits init itself (virtualizer.js line 26) and then wires
runJavaScript through virtMapJs. -/
def jsVirtEvents (maxLogBytes timeoutMs : Nat) (acts : List Jsact) :
    List REvent :=
  REvent.init ::
    (virtMapJsAll maxLogBytes Budget.start
      (jsRunnerEvents maxLogBytes timeoutMs acts)).2

/-! Python executor host wrapper (executor.js) and the pyodide worker
(pyWorker.js): token filters and the worker run handler. -/

/-- Payload of a worker-to-host message as seen by the executor listeners
(ready is handled specially by the virtualizer listener). -/
inductive WMsg where
  | ready
  | start
  | stdout (text : String)
  | stderr (text : String)
  | result (value : String)
  | error (message : String)
deriving DecidableEq, Repr

/-- Shallow embedding of the host-side token filter in
PythonExecutor.ensureWorker (executor.js line 19:
if (msg.token && msg.token !== this.token) return).  A missing or empty
token is falsy in the source, so the filter does not trigger on it;
only a present token differing from the session token is rejected. -/
def hostAccepts (sessionToken : String) (msgToken : Option String) : Bool :=
  match msgToken with
  | none => true
  | some t => t == sessionToken

/-- Listener dispatch of the host wrapper for one incoming worker message:
when the token filter accepts, every registered listener receives the
message; otherwise none does.  Returns the list of listener invocations. -/
def hostDispatch (sessionToken : String) (msgToken : Option String)
    (listenerCount : Nat) (m : WMsg) : List WMsg :=
  if hostAccepts sessionToken msgToken then List.replicate listenerCount m
  else []

/-- Shallow embedding of the worker-side token check for run messages
(pyWorker.js line 102: if (!msg.token || msg.token !== currentToken)
return).  A missing token is rejected, and a present token must equal the
current token, which itself may be unset. -/
def workerRunAccepts (currentToken msgToken : Option String) : Bool :=
  match msgToken, currentToken with
  | some t, some c => t == c
  | _, _ => false

/-- Actions the worker run handler performs in order, including messages
posted back to the host. -/
inductive WorkerAction where
  | setBridge
  | postStart
  | installRedirect
  | postStdout (text : String)
  | postStderr (text : String)
  | postResult (value : String)
  | postError (message : String)
deriving DecidableEq, Repr

/-- Recognizer for the redirection-install action. -/
def WorkerAction.isInstall : WorkerAction → Bool
  | .installRedirect => true
  | _ => false

/-- Recognizer for the start post. -/
def WorkerAction.isStart : WorkerAction → Bool
  | .postStart => true
  | _ => false

/-- Recognizer for result posts. -/
def WorkerAction.isResult : WorkerAction → Bool
  | .postResult _ => true
  | _ => false

/-- Recognizer for error posts. -/
def WorkerAction.isError : WorkerAction → Bool
  | .postError _ => true
  | _ => false

/-- One stdout/stderr write performed by the redirected Python streams
during evaluation. -/
inductive StdWrite where
  | out (text : String)
  | err (text : String)
deriving DecidableEq, Repr

/-- Action for a stream write. -/
def StdWrite.action : StdWrite → WorkerAction
  | .out t => WorkerAction.postStdout t
  | .err t => WorkerAction.postStderr t

/-- Outcome of evaluating the submitted code in pyodide: the writes the
code performed, and either the final value (already String-coerced, none
when the value was null or undefined) or the raised exception message. -/
structure EvalOutcome where
  writes : List StdWrite
  res : Except String (Option String)
deriving Repr

/-- Shallow embedding of the accepted-run path of the worker message
handler (pyWorker.js lines 104-147): install the JS bridge, post start,
install the stdout/stderr redirection, evaluate (streaming writes), then
post result (value coerced to text, empty string for null/undefined) or
error (the exception message). -/
def runHandler (o : EvalOutcome) : List WorkerAction :=
  [WorkerAction.setBridge, WorkerAction.postStart, WorkerAction.installRedirect]
    ++ o.writes.map StdWrite.action
    ++ [match o.res with
        | .ok none => WorkerAction.postResult ""
        | .ok (some v) => WorkerAction.postResult v
        | .error m => WorkerAction.postError m]

/-! Unified runner, Python branch (virtualizer.js lines 62-96).  State:
the finished flag of the run(),finally closure, the host-side timer, the
virtualizer listener registration (off) and whether the executor worker
is alive (dispose terminates it and clears all listeners). -/

/-- Host-side happenings of the Python branch.  ready merges the whole
task that delivers the worker ready message: the executor marks ready,
the pending run() posts the run message and resolves, and its finally
microtask (clear timer, emit done) drains before the next task. -/
inductive PyAct where
  | ready
  | wmsg (m : WMsg)
  | timerFire
  | stop
deriving DecidableEq, Repr

/-- State of the Python branch of runCode. -/
structure PyState where
  finished : Bool
  timerOn : Bool
  offOn : Bool
  workerAlive : Bool
  runPosted : Bool
  budget : Budget
deriving DecidableEq, Repr

/-- State right after the Python branch constructed the executor,
registered the listener, armed the timer and called run(). -/
def PyState.start : PyState :=
  { finished := false, timerOn := true, offOn := true,
    workerAlive := true, runPosted := false, budget := Budget.start }

/-- Shallow embedding of the virtualizer listener for worker messages
(virtualizer.js lines 64-71): ready is ignored, start/result/error are
re-emitted, stdout and stderr go through the shared budget. -/
def pyListen (maxLogBytes : Nat) (b : Budget) :
    WMsg → Budget × List REvent
  | .ready => (b, [])
  | .start => (b, [REvent.start])
  | .stdout text => budgetedEmit maxLogBytes b .stdout text "info"
  | .stderr text => budgetedEmit maxLogBytes b .stderr text "warn"
  | .result value => (b, [REvent.result value])
  | .error message => (b, [REvent.error message none])

/-- One host-side step of the Python branch.  A worker message reaches the
virtualizer listener only while the worker is alive (not disposed) and the
listener is registered.  The ready step posts the run message and runs the
finally callback: set finished, clear the timer, emit done.  The timer, if
still armed and the run not finished, emits timeout and disposes the
executor without setting finished.  stop clears the timer, unregisters the
listener and disposes the executor. -/
def pyStep (maxLogBytes timeoutMs : Nat) (s : PyState) :
    PyAct → PyState × List REvent
  | .ready =>
    if s.workerAlive && !s.runPosted then
      if s.finished then ({ s with runPosted := true }, [])
      else
        ({ s with runPosted := true, finished := true, timerOn := false },
         [REvent.done])
    else (s, [])
  | .wmsg m =>
    if s.workerAlive && s.offOn then
      let (b, evs) := pyListen maxLogBytes s.budget m
      ({ s with budget := b }, evs)
    else (s, [])
  | .timerFire =>
    if s.timerOn then
      if s.finished then ({ s with timerOn := false }, [])
      else
        ({ s with timerOn := false, workerAlive := false },
         [REvent.timeout ("Execution timed out after " ++ toString timeoutMs ++ "ms")])
    else (s, [])
  | .stop =>
    ({ s with timerOn := false, offOn := false, workerAlive := false }, [])

/-- Fold of pyStep over a happening list. -/
def pyGo (maxLogBytes timeoutMs : Nat) (s : PyState) :
    List PyAct → PyState × List REvent
  | [] => (s, [])
  | a :: rest =>
    let (s1, evs1) := pyStep maxLogBytes timeoutMs s a
    let (s2, evs2) := pyGo maxLogBytes timeoutMs s1 rest
    (s2, evs1 ++ evs2)

/-- Canonical event stream of a runCode invocation dispatched to the
Python branch: init is emitted synchronously, then happenings unfold. -/
def pyVirtEvents (maxLogBytes timeoutMs : Nat) (acts : List PyAct) :
    List REvent :=
  REvent.init :: (pyGo maxLogBytes timeoutMs PyState.start acts).2

/-- Final host state of the Python branch after a happening list. -/
def pyVirtFinal (maxLogBytes timeoutMs : Nat) (acts : List PyAct) : PyState :=
  (pyGo maxLogBytes timeoutMs PyState.start acts).1

/-! Language dispatch of runCode (virtualizer.js lines 45-101). -/

/-- Language tags dispatched to the JS branch. -/
def jsLangs : List String := ["javascript", "js", "typescript", "ts"]

/-- Language tags dispatched to the Python branch. -/
def pyLangs : List String := ["python", "py"]

/-- Shallow embedding of runCode dispatch: the event stream and the number
of isolation contexts created (the JS branch creates one iframe, the
Python branch one worker, the unsupported branch none — it emits error
then done and returns a no-op stop, so no happening list applies). -/
def runCodeModel (language : String) (maxLogBytes timeoutMs : Nat)
    (jsActs : List Jsact) (pyActs : List PyAct) : List REvent × Nat :=
  if language ∈ jsLangs then
    (jsVirtEvents maxLogBytes timeoutMs jsActs, 1)
  else if language ∈ pyLangs then
    (pyVirtEvents maxLogBytes timeoutMs pyActs, 1)
  else
    ([REvent.init,
      REvent.error ("Unsupported language: " ++ language) none,
      REvent.done], 0)

/-! Option defaults of runCode (virtualizer.js lines 12-18). -/

/-- Options object passed to runCode; none models an absent property
(destructuring defaults apply). -/
structure RunOptions where
  language : Option String
  code : Option String
  timeoutMs : Option Nat
  maxLogBytes : Option Nat
  indexURL : Option String
deriving Repr

/-- Resolved timeoutMs: the destructuring default is 5000. -/
def resolveTimeoutMs (o : RunOptions) : Nat := o.timeoutMs.getD 5000

/-- Resolved maxLogBytes: the destructuring default is 64 * 1024. -/
def resolveMaxLogBytes (o : RunOptions) : Nat := o.maxLogBytes.getD (64 * 1024)

/-- Resolved language: the destructuring default is javascript. -/
def resolveLanguage (o : RunOptions) : String := o.language.getD "javascript"

/-! Guarded event delivery (the emit helpers of virtualizer.js line 22-24
and the iframe runner, and the listener dispatch of executor.js lines
23-25): every callback invocation is wrapped in try/catch with the
exception swallowed. -/

/-- Shallow embedding of the emit wrapper
try onEvent(event) catch (ignored) : the callback may throw (modelled as
Except.error) but the wrapper always returns normally. -/
def emitGuarded (onEvent : REvent → Except String Unit) (e : REvent) :
    Except String Unit :=
  match onEvent e with
  | .ok _ => .ok ()
  | .error _ => .ok ()

/-- Guarded delivery of a whole event list: each event is attempted in
order through emitGuarded; returns the events attempted and the overall
outcome. -/
def deliverAll (onEvent : REvent → Except String Unit) :
    List REvent → List REvent × Except String Unit
  | [] => ([], .ok ())
  | e :: rest =>
    match emitGuarded onEvent e with
    | _ =>
      let (ds, r) := deliverAll onEvent rest
      (e :: ds, r)

/-- Shallow embedding of the executor listener dispatch
listeners.forEach(cb, try cb(msg) catch (ignored)): all listeners are
invoked and no exception propagates. -/
def dispatchListeners (cbs : List (WMsg → Except String Unit)) (m : WMsg) :
    Except String Unit :=
  match cbs with
  | [] => .ok ()
  | c :: rest =>
    match c m with
    | _ => dispatchListeners rest m

/-! Snippet persistence service (server/index.js). -/

/-- Stored snippet record. -/
structure Snippet where
  id : String
  code : String
  language : String
  meta : String
  createdAt : Nat
deriving DecidableEq, Repr

/-- Store contents (Object.values of the JSON map). -/
abbrev Store := List Snippet

/-- Shallow embedding of POST /api/snippets (server/index.js lines 31-42):
the request code is none when it was not a string; a non-string code or one
longer than 200000 characters is rejected with status 400 and nothing is
stored; otherwise the snippet is stored under a generated id, which is
returned with status 200. -/
def postSnippet (store : Store) (codeArg : Option String)
    (language meta newId : String) (now : Nat) :
    Store × Nat × Option String :=
  match codeArg with
  | none => (store, 400, none)
  | some c =>
    if c.length > 200000 then (store, 400, none)
    else (store ++ [{ id := newId, code := c, language := language,
                      meta := meta, createdAt := now }], 200, some newId)

/-- Insert a snippet into a list sorted by createdAt descending. -/
def insertDesc (x : Snippet) : List Snippet → List Snippet
  | [] => [x]
  | y :: ys =>
    if y.createdAt ≤ x.createdAt then x :: y :: ys
    else y :: insertDesc x ys

/-- Sort snippets by createdAt descending (the comparator
(b.createdAt - a.createdAt) of server/index.js line 26). -/
def sortDesc : List Snippet → List Snippet
  | [] => []
  | x :: xs => insertDesc x (sortDesc xs)

/-- Shallow embedding of GET /api/snippets (server/index.js lines 23-29):
all snippets sorted newest-first, capped at 100 entries. -/
def listSnippets (store : Store) : List Snippet :=
  (sortDesc store).take 100

/-- Shallow embedding of GET /api/snippets/:id (server/index.js lines
44-50): the snippet with the requested id, or none (status 404). -/
def getSnippet (store : Store) (id : String) : Option Snippet :=
  store.find? (fun s => s.id == id)

/-- Response status of GET /api/snippets/:id. -/
def getSnippetStatus (store : Store) (id : String) : Nat :=
  match getSnippet store id with
  | none => 404
  | some _ => 200

/-! Auxiliary predicates and generic list lemmas used by the theorems. -/

/-- Recognizer for init among inner runner events. -/
def JEvent.isInit : JEvent → Bool
  | .init => true
  | _ => false

/-- Recognizer for start among inner runner events. -/
def JEvent.isStart : JEvent → Bool
  | .start => true
  | _ => false

/-- Recognizer for terminal inner runner events (done / error / timeout). -/
def JEvent.isTerminal : JEvent → Bool
  | .done => true
  | .error _ _ => true
  | .timeout _ => true
  | _ => false

/-- Happening that delivers a start message from the iframe. -/
def Jsact.isStartMsg : Jsact → Bool
  | .msg .start => true
  | _ => false

/-- Happening that delivers a start message from the worker. -/
def PyAct.isStartMsg : PyAct → Bool
  | .wmsg .start => true
  | _ => false

/-- Suffix of a list strictly after its first element satisfying p
(empty when no element satisfies p). -/
def suffixAfterFirst (p : α → Bool) : List α → List α
  | [] => []
  | x :: xs => if p x then xs else suffixAfterFirst p xs

theorem suffixAfterFirst_append_of_countP_zero (p : α → Bool) (l₁ l₂ : List α)
    (h : l₁.countP p = 0) :
    suffixAfterFirst p (l₁ ++ l₂) = suffixAfterFirst p l₂ := by
  induction l₁ with
  | nil => rfl
  | cons x xs ih =>
    rw [List.countP_cons] at h
    cases hpx : p x with
    | true => rw [hpx] at h; simp at h
    | false =>
      have hxs : xs.countP p = 0 := by rw [hpx] at h; simpa using h
      simp [suffixAfterFirst, hpx, ih hxs]

theorem suffixAfterFirst_append_nil (p : α → Bool) (l : List α) :
    suffixAfterFirst p (l ++ []) = suffixAfterFirst p l := by
  simp

theorem countP_le_one_of_suffixAfterFirst_nil (p : α → Bool) (l : List α)
    (h : suffixAfterFirst p l = []) : l.countP p ≤ 1 := by
  induction l with
  | nil => simp
  | cons x xs ih =>
    rw [List.countP_cons]
    by_cases hx : p x = true
    · simp [suffixAfterFirst, hx] at h
      subst h
      simp [hx]
    · have hx' : p x = false := by simpa using hx
      simp [suffixAfterFirst, hx'] at h
      have := ih h
      simp [hx']
      omega

theorem structure_of_suffixAfterFirst_nil (p : α → Bool) (l : List α)
    (h : suffixAfterFirst p l = []) :
    l.countP p = 0 ∨
      ∃ pre t, l = pre ++ [t] ∧ p t = true ∧ pre.countP p = 0 := by
  induction l with
  | nil => left; rfl
  | cons x xs ih =>
    by_cases hx : p x = true
    · simp [suffixAfterFirst, hx] at h
      subst h
      right
      exact ⟨[], x, rfl, hx, rfl⟩
    · have hx' : p x = false := by simpa using hx
      simp [suffixAfterFirst, hx'] at h
      rcases ih h with h0 | ⟨pre, t, rfl, hpt, hpre⟩
      · left; simp [List.countP_cons, hx', h0]
      · right
        exact ⟨x :: pre, t, rfl, hpt, by simp [List.countP_cons, hx', hpre]⟩

/-! Unfolding equations for the folds. -/

theorem jsGo_cons (maxB tm : Nat) (s : JsState) (a : Jsact) (rest : List Jsact) :
    jsGo maxB tm s (a :: rest) =
      ((jsGo maxB tm (jsStep maxB tm s a).1 rest).1,
       (jsStep maxB tm s a).2 ++ (jsGo maxB tm (jsStep maxB tm s a).1 rest).2) := rfl

theorem pyGo_cons (maxB tm : Nat) (s : PyState) (a : PyAct) (rest : List PyAct) :
    pyGo maxB tm s (a :: rest) =
      ((pyGo maxB tm (pyStep maxB tm s a).1 rest).1,
       (pyStep maxB tm s a).2 ++ (pyGo maxB tm (pyStep maxB tm s a).1 rest).2) := rfl

theorem virtMapJsAll_cons (maxB : Nat) (b : Budget) (e : JEvent) (rest : List JEvent) :
    virtMapJsAll maxB b (e :: rest) =
      ((virtMapJsAll maxB (virtMapJs maxB b e).1 rest).1,
       (virtMapJs maxB b e).2 ++ (virtMapJsAll maxB (virtMapJs maxB b e).1 rest).2) := rfl

theorem budgetRun_cons (maxB : Nat) (b : Budget) (x : OutKind × String × String)
    (rest : List (OutKind × String × String)) :
    budgetRun maxB b (x :: rest) =
      ((budgetRun maxB (budgetedEmit maxB b x.1 x.2.1 x.2.2).1 rest).1,
       (budgetedEmit maxB b x.1 x.2.1 x.2.2).2 ++
         (budgetRun maxB (budgetedEmit maxB b x.1 x.2.1 x.2.2).1 rest).2) := rfl

/-! Step-level lemmas for the JS branch. -/

theorem jsStep_of_finished (maxB tm : Nat) (s : JsState) (a : Jsact)
    (h : s.finished = true) :
    (jsStep maxB tm s a).2 = [] ∧ (jsStep maxB tm s a).1.finished = true := by
  cases a with
  | msg d =>
    cases d <;> simp only [jsStep, jsHandleMsg] <;> split_ifs <;> simp_all
  | timerFire =>
    simp only [jsStep]; split_ifs <;> simp_all
  | stop => simp [jsStep, h]

theorem jsStep_no_init (maxB tm : Nat) (s : JsState) (a : Jsact) :
    ((jsStep maxB tm s a).2).countP JEvent.isInit = 0 := by
  cases a with
  | msg d =>
    cases d <;> simp only [jsStep, jsHandleMsg] <;> split_ifs <;>
      simp [JEvent.isInit]
  | timerFire =>
    simp only [jsStep]; split_ifs <;> simp [JEvent.isInit]
  | stop => simp [jsStep]

theorem jsStep_start_le (maxB tm : Nat) (s : JsState) (a : Jsact) :
    ((jsStep maxB tm s a).2).countP JEvent.isStart ≤
      (if a.isStartMsg then 1 else 0) := by
  cases a with
  | msg d =>
    cases d <;> simp only [jsStep, jsHandleMsg, Jsact.isStartMsg] <;>
      split_ifs <;> simp [JEvent.isStart]
  | timerFire =>
    simp only [jsStep, Jsact.isStartMsg]; split_ifs <;> simp [JEvent.isStart]
  | stop => simp [jsStep, Jsact.isStartMsg]

theorem jsStep_terminal_cases (maxB tm : Nat) (s : JsState) (a : Jsact) :
    ((jsStep maxB tm s a).2).countP JEvent.isTerminal = 0 ∨
      (∃ t, (jsStep maxB tm s a).2 = [t] ∧ JEvent.isTerminal t = true ∧
        (jsStep maxB tm s a).1.finished = true) := by
  cases a with
  | msg d =>
    cases d <;> simp only [jsStep, jsHandleMsg] <;> split_ifs <;>
      first
        | (left; simp [JEvent.isTerminal]; done)
        | (right; exact ⟨_, rfl, rfl, rfl⟩)
  | timerFire =>
    simp only [jsStep]
    split_ifs <;>
      first
        | (left; simp [JEvent.isTerminal]; done)
        | (right; exact ⟨_, rfl, rfl, rfl⟩)
  | stop => left; simp [jsStep]

theorem jsStep_stop (maxB tm : Nat) (s : JsState) :
    (jsStep maxB tm s .stop).1.listenerOn = false ∧
      (jsStep maxB tm s .stop).1.timerOn = false ∧
      (jsStep maxB tm s .stop).2 = [] := by
  simp [jsStep]

theorem jsStep_of_stopped (maxB tm : Nat) (s : JsState) (a : Jsact)
    (hL : s.listenerOn = false) (hT : s.timerOn = false) :
    (jsStep maxB tm s a).2 = [] ∧
      (jsStep maxB tm s a).1.listenerOn = false ∧
      (jsStep maxB tm s a).1.timerOn = false := by
  cases a with
  | msg d => simp [jsStep, hL, hT]
  | timerFire => simp [jsStep, hL, hT]
  | stop => simp [jsStep]

/-! Fold-level lemmas for the JS branch. -/

theorem jsGo_of_finished (maxB tm : Nat) (acts : List Jsact) :
    ∀ s : JsState, s.finished = true → (jsGo maxB tm s acts).2 = [] := by
  induction acts with
  | nil => intro s _; rfl
  | cons a rest ih =>
    intro s h
    rw [jsGo_cons]
    rcases jsStep_of_finished maxB tm s a h with ⟨he, hf⟩
    simp [he, ih _ hf]

theorem jsGo_of_stopped (maxB tm : Nat) (acts : List Jsact) :
    ∀ s : JsState, s.listenerOn = false → s.timerOn = false →
      (jsGo maxB tm s acts).2 = [] := by
  induction acts with
  | nil => intro s _ _; rfl
  | cons a rest ih =>
    intro s hL hT
    rw [jsGo_cons]
    rcases jsStep_of_stopped maxB tm s a hL hT with ⟨he, hL1, hT1⟩
    simp [he, ih _ hL1 hT1]

theorem jsGo_no_init (maxB tm : Nat) (acts : List Jsact) :
    ∀ s : JsState, ((jsGo maxB tm s acts).2).countP JEvent.isInit = 0 := by
  induction acts with
  | nil => intro s; rfl
  | cons a rest ih =>
    intro s
    rw [jsGo_cons]
    simp [List.countP_append, jsStep_no_init, ih]

theorem jsGo_start_le (maxB tm : Nat) (acts : List Jsact) :
    ∀ s : JsState, ((jsGo maxB tm s acts).2).countP JEvent.isStart ≤
      acts.countP Jsact.isStartMsg := by
  induction acts with
  | nil => intro s; simp [jsGo]
  | cons a rest ih =>
    intro s
    rw [jsGo_cons]
    rw [List.countP_append, List.countP_cons]
    have h1 := jsStep_start_le maxB tm s a
    have h2 := ih (jsStep maxB tm s a).1
    by_cases ha : a.isStartMsg = true
    · rw [if_pos ha] at h1 ⊢; omega
    · rw [if_neg ha] at h1 ⊢; omega

theorem jsGo_terminal_suffix (maxB tm : Nat) (acts : List Jsact) :
    ∀ s : JsState,
      suffixAfterFirst JEvent.isTerminal (jsGo maxB tm s acts).2 = [] := by
  induction acts with
  | nil => intro s; rfl
  | cons a rest ih =>
    intro s
    rw [jsGo_cons]
    rcases jsStep_terminal_cases maxB tm s a with h0 | ⟨t, he, ht, hf⟩
    · rw [suffixAfterFirst_append_of_countP_zero _ _ _ h0]
      exact ih _
    · rw [he, jsGo_of_finished maxB tm rest _ hf]
      simp [suffixAfterFirst, ht]

theorem jsGo_append (maxB tm : Nat) (l₁ l₂ : List Jsact) :
    ∀ s : JsState, jsGo maxB tm s (l₁ ++ l₂) =
      ((jsGo maxB tm (jsGo maxB tm s l₁).1 l₂).1,
       (jsGo maxB tm s l₁).2 ++ (jsGo maxB tm (jsGo maxB tm s l₁).1 l₂).2) := by
  induction l₁ with
  | nil => intro s; simp [jsGo]
  | cons a rest ih =>
    intro s
    rw [List.cons_append, jsGo_cons, ih, jsGo_cons]
    simp

/-! Transfer lemmas through the JS-branch normalization callback. -/

theorem budgetedEmit_no_init (maxB : Nat) (b : Budget) (k : OutKind)
    (t l : String) :
    ((budgetedEmit maxB b k t l).2).countP REvent.isInit = 0 := by
  cases k <;> simp only [budgetedEmit, OutKind.mk] <;> split_ifs <;>
    simp [REvent.isInit]

theorem budgetedEmit_no_start (maxB : Nat) (b : Budget) (k : OutKind)
    (t l : String) :
    ((budgetedEmit maxB b k t l).2).countP REvent.isStart = 0 := by
  cases k <;> simp only [budgetedEmit, OutKind.mk] <;> split_ifs <;>
    simp [REvent.isStart]

theorem budgetedEmit_no_terminal (maxB : Nat) (b : Budget) (k : OutKind)
    (t l : String) :
    ((budgetedEmit maxB b k t l).2).countP REvent.isTerminal = 0 := by
  cases k <;> simp only [budgetedEmit, OutKind.mk] <;> split_ifs <;>
    simp [REvent.isTerminal]

theorem virtMapJs_count_init (maxB : Nat) (b : Budget) (e : JEvent) :
    ((virtMapJs maxB b e).2).countP REvent.isInit =
      (if JEvent.isInit e then 1 else 0) := by
  cases e <;>
    simp [virtMapJs, JEvent.isInit, REvent.isInit, List.countP_append,
      budgetedEmit_no_init, List.countP_cons]

theorem virtMapJs_count_start (maxB : Nat) (b : Budget) (e : JEvent) :
    ((virtMapJs maxB b e).2).countP REvent.isStart =
      (if JEvent.isStart e then 1 else 0) := by
  cases e <;>
    simp [virtMapJs, JEvent.isStart, REvent.isStart, List.countP_append,
      budgetedEmit_no_start, List.countP_cons]

theorem virtMapJs_count_terminal (maxB : Nat) (b : Budget) (e : JEvent) :
    ((virtMapJs maxB b e).2).countP REvent.isTerminal =
      (if JEvent.isTerminal e then 1 else 0) := by
  cases e <;>
    simp [virtMapJs, JEvent.isTerminal, REvent.isTerminal, List.countP_append,
      budgetedEmit_no_terminal, List.countP_cons]

theorem virtMapJsAll_count_init (maxB : Nat) (evs : List JEvent) :
    ∀ b : Budget, ((virtMapJsAll maxB b evs).2).countP REvent.isInit =
      evs.countP JEvent.isInit := by
  induction evs with
  | nil => intro b; rfl
  | cons e rest ih =>
    intro b
    rw [virtMapJsAll_cons, List.countP_append, List.countP_cons,
      virtMapJs_count_init, ih]
    omega

theorem virtMapJsAll_count_start (maxB : Nat) (evs : List JEvent) :
    ∀ b : Budget, ((virtMapJsAll maxB b evs).2).countP REvent.isStart =
      evs.countP JEvent.isStart := by
  induction evs with
  | nil => intro b; rfl
  | cons e rest ih =>
    intro b
    rw [virtMapJsAll_cons, List.countP_append, List.countP_cons,
      virtMapJs_count_start, ih]
    omega

theorem virtMapJsAll_count_terminal (maxB : Nat) (evs : List JEvent) :
    ∀ b : Budget, ((virtMapJsAll maxB b evs).2).countP REvent.isTerminal =
      evs.countP JEvent.isTerminal := by
  induction evs with
  | nil => intro b; rfl
  | cons e rest ih =>
    intro b
    rw [virtMapJsAll_cons, List.countP_append, List.countP_cons,
      virtMapJs_count_terminal, ih]
    omega

theorem virtMapJsAll_append (maxB : Nat) (l₁ l₂ : List JEvent) :
    ∀ b : Budget, virtMapJsAll maxB b (l₁ ++ l₂) =
      ((virtMapJsAll maxB (virtMapJsAll maxB b l₁).1 l₂).1,
       (virtMapJsAll maxB b l₁).2 ++
         (virtMapJsAll maxB (virtMapJsAll maxB b l₁).1 l₂).2) := by
  induction l₁ with
  | nil => intro b; simp [virtMapJsAll]
  | cons e rest ih =>
    intro b
    rw [List.cons_append, virtMapJsAll_cons, ih, virtMapJsAll_cons]
    simp

theorem virtMapJs_terminal_single (maxB : Nat) (b : Budget) (e : JEvent)
    (h : JEvent.isTerminal e = true) :
    ∃ r, (virtMapJs maxB b e).2 = [r] ∧ REvent.isTerminal r = true := by
  cases e <;> simp [JEvent.isTerminal] at h <;>
    exact ⟨_, rfl, rfl⟩

theorem virtMapJsAll_terminal_suffix (maxB : Nat) (evs : List JEvent)
    (b : Budget) (h : suffixAfterFirst JEvent.isTerminal evs = []) :
    suffixAfterFirst REvent.isTerminal ((virtMapJsAll maxB b evs).2) = [] := by
  rcases structure_of_suffixAfterFirst_nil _ _ h with h0 | ⟨pre, t, rfl, hpt, hpre⟩
  · have hc : ((virtMapJsAll maxB b evs).2).countP REvent.isTerminal = 0 := by
      rw [virtMapJsAll_count_terminal, h0]
    rw [← List.append_nil ((virtMapJsAll maxB b evs).2)]
    rw [suffixAfterFirst_append_of_countP_zero _ _ _ hc]
    rfl
  · rw [virtMapJsAll_append]
    have hc : ((virtMapJsAll maxB b pre).2).countP REvent.isTerminal = 0 := by
      rw [virtMapJsAll_count_terminal, hpre]
    rw [suffixAfterFirst_append_of_countP_zero _ _ _ hc]
    rcases virtMapJs_terminal_single maxB (virtMapJsAll maxB b pre).1 t hpt with
      ⟨r, hr, hrt⟩
    rw [virtMapJsAll_cons, hr]
    have h0 : (virtMapJsAll maxB
        (virtMapJs maxB (virtMapJsAll maxB b pre).1 t).1 []).2 = [] := rfl
    rw [h0, List.append_nil]
    simp [suffixAfterFirst, hrt]

/-! Lemmas for the Python branch. -/

theorem budgetedEmit_no_done (maxB : Nat) (b : Budget) (k : OutKind)
    (t l : String) :
    ((budgetedEmit maxB b k t l).2).countP REvent.isDone = 0 := by
  cases k <;> simp only [budgetedEmit, OutKind.mk] <;> split_ifs <;>
    simp [REvent.isDone]

theorem budgetedEmit_no_timeout (maxB : Nat) (b : Budget) (k : OutKind)
    (t l : String) :
    ((budgetedEmit maxB b k t l).2).countP REvent.isTimeout = 0 := by
  cases k <;> simp only [budgetedEmit, OutKind.mk] <;> split_ifs <;>
    simp [REvent.isTimeout]

theorem pyListen_no_init (maxB : Nat) (b : Budget) (m : WMsg) :
    ((pyListen maxB b m).2).countP REvent.isInit = 0 := by
  cases m <;> simp [pyListen, REvent.isInit, budgetedEmit_no_init]

theorem pyListen_no_done (maxB : Nat) (b : Budget) (m : WMsg) :
    ((pyListen maxB b m).2).countP REvent.isDone = 0 := by
  cases m <;> simp [pyListen, REvent.isDone, budgetedEmit_no_done]

theorem pyListen_no_timeout (maxB : Nat) (b : Budget) (m : WMsg) :
    ((pyListen maxB b m).2).countP REvent.isTimeout = 0 := by
  cases m <;> simp [pyListen, REvent.isTimeout, budgetedEmit_no_timeout]

theorem pyListen_start_count (maxB : Nat) (b : Budget) (m : WMsg) :
    ((pyListen maxB b m).2).countP REvent.isStart =
      (match m with | .start => 1 | _ => 0) := by
  cases m <;> simp [pyListen, REvent.isStart, budgetedEmit_no_start]

theorem pyStep_no_init (maxB tm : Nat) (s : PyState) (a : PyAct) :
    ((pyStep maxB tm s a).2).countP REvent.isInit = 0 := by
  cases a with
  | ready => simp only [pyStep]; split_ifs <;> simp [REvent.isInit]
  | wmsg m =>
    simp only [pyStep]
    split_ifs <;> simp [pyListen_no_init]
  | timerFire => simp only [pyStep]; split_ifs <;> simp [REvent.isInit]
  | stop => simp [pyStep]

theorem pyStep_start_le (maxB tm : Nat) (s : PyState) (a : PyAct) :
    ((pyStep maxB tm s a).2).countP REvent.isStart ≤
      (if a.isStartMsg then 1 else 0) := by
  cases a with
  | ready =>
    simp only [pyStep, PyAct.isStartMsg]
    split_ifs <;> simp [REvent.isStart]
  | wmsg m =>
    cases m <;> simp only [pyStep, PyAct.isStartMsg] <;> split_ifs <;>
      simp [pyListen, REvent.isStart, budgetedEmit_no_start]
  | timerFire =>
    simp only [pyStep, PyAct.isStartMsg]
    split_ifs <;> simp [REvent.isStart]
  | stop => simp [pyStep, PyAct.isStartMsg]

theorem pyStep_of_finished (maxB tm : Nat) (s : PyState) (a : PyAct)
    (h : s.finished = true) :
    ((pyStep maxB tm s a).2).countP REvent.isDone = 0 ∧
      ((pyStep maxB tm s a).2).countP REvent.isTimeout = 0 ∧
      (pyStep maxB tm s a).1.finished = true := by
  cases a with
  | ready => simp only [pyStep]; split_ifs <;> simp_all
  | wmsg m =>
    simp only [pyStep]
    split_ifs <;> simp [pyListen_no_done, pyListen_no_timeout, h]
  | timerFire => simp only [pyStep]; split_ifs <;> simp_all
  | stop => simp [pyStep, h]

theorem pyStep_of_dead (maxB tm : Nat) (s : PyState) (a : PyAct)
    (hW : s.workerAlive = false) (hT : s.timerOn = false) :
    (pyStep maxB tm s a).2 = [] ∧
      (pyStep maxB tm s a).1.workerAlive = false ∧
      (pyStep maxB tm s a).1.timerOn = false := by
  cases a with
  | ready => simp [pyStep, hW, hT]
  | wmsg m => simp [pyStep, hW, hT]
  | timerFire => simp [pyStep, hW, hT]
  | stop => simp [pyStep]

theorem pyGo_of_dead (maxB tm : Nat) (acts : List PyAct) :
    ∀ s : PyState, s.workerAlive = false → s.timerOn = false →
      (pyGo maxB tm s acts).2 = [] := by
  induction acts with
  | nil => intro s _ _; rfl
  | cons a rest ih =>
    intro s hW hT
    rw [pyGo_cons]
    rcases pyStep_of_dead maxB tm s a hW hT with ⟨he, hW1, hT1⟩
    simp [he, ih _ hW1 hT1]

theorem pyGo_DT_of_finished (maxB tm : Nat) (acts : List PyAct) :
    ∀ s : PyState, s.finished = true →
      ((pyGo maxB tm s acts).2).countP REvent.isDone = 0 ∧
        ((pyGo maxB tm s acts).2).countP REvent.isTimeout = 0 := by
  induction acts with
  | nil => intro s _; exact ⟨rfl, rfl⟩
  | cons a rest ih =>
    intro s h
    rw [pyGo_cons]
    rcases pyStep_of_finished maxB tm s a h with ⟨hd, ht, hf⟩
    rcases ih (pyStep maxB tm s a).1 hf with ⟨hd2, ht2⟩
    constructor <;> rw [List.countP_append] <;> omega

theorem pyStep_DT_cases (maxB tm : Nat) (s : PyState) (a : PyAct) :
    (((pyStep maxB tm s a).2).countP REvent.isDone = 0 ∧
      ((pyStep maxB tm s a).2).countP REvent.isTimeout = 0) ∨
    (((pyStep maxB tm s a).2).countP REvent.isDone +
        ((pyStep maxB tm s a).2).countP REvent.isTimeout = 1 ∧
      ((pyStep maxB tm s a).1.finished = true ∨
        ((pyStep maxB tm s a).1.workerAlive = false ∧
          (pyStep maxB tm s a).1.timerOn = false))) := by
  cases a with
  | ready =>
    simp only [pyStep]
    split_ifs <;> simp [REvent.isDone, REvent.isTimeout]
  | wmsg m =>
    simp only [pyStep]
    split_ifs with h
    · exact Or.inl ⟨pyListen_no_done maxB s.budget m,
        pyListen_no_timeout maxB s.budget m⟩
    · exact Or.inl ⟨rfl, rfl⟩
  | timerFire =>
    simp only [pyStep]
    split_ifs <;> simp [REvent.isDone, REvent.isTimeout]
  | stop => left; simp [pyStep]

theorem pyGo_DT_le_one (maxB tm : Nat) (acts : List PyAct) :
    ∀ s : PyState,
      ((pyGo maxB tm s acts).2).countP REvent.isDone +
        ((pyGo maxB tm s acts).2).countP REvent.isTimeout ≤ 1 := by
  induction acts with
  | nil => intro s; simp [pyGo]
  | cons a rest ih =>
    intro s
    rw [pyGo_cons]
    rcases pyStep_DT_cases maxB tm s a with ⟨hd, ht⟩ | ⟨h1, hfin | ⟨hW, hT⟩⟩
    · have h2 := ih (pyStep maxB tm s a).1
      simp only [List.countP_append]
      omega
    · rcases pyGo_DT_of_finished maxB tm rest (pyStep maxB tm s a).1 hfin with
        ⟨hd2, ht2⟩
      simp only [List.countP_append]
      omega
    · have h0 := pyGo_of_dead maxB tm rest (pyStep maxB tm s a).1 hW hT
      simp only [List.countP_append, h0]
      simp only [List.countP_nil]
      omega

theorem pyGo_no_init (maxB tm : Nat) (acts : List PyAct) :
    ∀ s : PyState, ((pyGo maxB tm s acts).2).countP REvent.isInit = 0 := by
  induction acts with
  | nil => intro s; rfl
  | cons a rest ih =>
    intro s
    rw [pyGo_cons]
    simp [List.countP_append, pyStep_no_init, ih]

theorem pyGo_start_le (maxB tm : Nat) (acts : List PyAct) :
    ∀ s : PyState, ((pyGo maxB tm s acts).2).countP REvent.isStart ≤
      acts.countP PyAct.isStartMsg := by
  induction acts with
  | nil => intro s; simp [pyGo]
  | cons a rest ih =>
    intro s
    rw [pyGo_cons]
    rw [List.countP_append, List.countP_cons]
    have h1 := pyStep_start_le maxB tm s a
    have h2 := ih (pyStep maxB tm s a).1
    by_cases ha : a.isStartMsg = true
    · rw [if_pos ha] at h1 ⊢; omega
    · rw [if_neg ha] at h1 ⊢; omega

theorem pyGo_append (maxB tm : Nat) (l₁ l₂ : List PyAct) :
    ∀ s : PyState, pyGo maxB tm s (l₁ ++ l₂) =
      ((pyGo maxB tm (pyGo maxB tm s l₁).1 l₂).1,
       (pyGo maxB tm s l₁).2 ++ (pyGo maxB tm (pyGo maxB tm s l₁).1 l₂).2) := by
  induction l₁ with
  | nil => intro s; simp [pyGo]
  | cons a rest ih =>
    intro s
    rw [List.cons_append, pyGo_cons, ih, pyGo_cons]
    simp

/-! Budget lemmas. -/

theorem outBytes_append (l₁ l₂ : List REvent) :
    outBytes (l₁ ++ l₂) = outBytes l₁ + outBytes l₂ := by
  induction l₁ with
  | nil => simp [outBytes]
  | cons e rest ih => cases e <;> simp [outBytes, ih, Nat.add_assoc]

theorem budgetedEmit_total (maxB : Nat) (b : Budget) (k : OutKind)
    (t l : String) :
    (budgetedEmit maxB b k t l).1.total =
      b.total + outBytes (budgetedEmit maxB b k t l).2 ∧
    (b.total ≤ maxB → (budgetedEmit maxB b k t l).1.total ≤ maxB) := by
  cases k <;> simp only [budgetedEmit, OutKind.mk] <;> split_ifs <;>
    simp_all [outBytes]

theorem budgetedEmit_warn_of_notified (maxB : Nat) (b : Budget) (k : OutKind)
    (t l : String) (h : b.truncNotified = true) :
    (budgetedEmit maxB b k t l).1.truncNotified = true ∧
      ((budgetedEmit maxB b k t l).2).countP REvent.isTruncWarn = 0 := by
  cases k <;> simp only [budgetedEmit, OutKind.mk] <;> split_ifs <;>
    simp_all [REvent.isTruncWarn]

theorem budgetedEmit_warn_of_fresh (maxB : Nat) (b : Budget) (k : OutKind)
    (t l : String) (h : b.truncNotified = false) :
    ((budgetedEmit maxB b k t l).2).countP REvent.isTruncWarn =
      (if (budgetedEmit maxB b k t l).1.truncNotified then 1 else 0) := by
  cases k <;> simp only [budgetedEmit, OutKind.mk] <;> split_ifs <;>
    simp_all [REvent.isTruncWarn]

theorem budgetRun_total (maxB : Nat) (items : List (OutKind × String × String)) :
    ∀ b : Budget,
      (budgetRun maxB b items).1.total =
        b.total + outBytes (budgetRun maxB b items).2 ∧
      (b.total ≤ maxB → (budgetRun maxB b items).1.total ≤ maxB) := by
  induction items with
  | nil => intro b; simp [budgetRun, outBytes]
  | cons x rest ih =>
    intro b
    rw [budgetRun_cons]
    dsimp only
    rcases budgetedEmit_total maxB b x.1 x.2.1 x.2.2 with ⟨h1, h2⟩
    rcases ih (budgetedEmit maxB b x.1 x.2.1 x.2.2).1 with ⟨h3, h4⟩
    constructor
    · rw [outBytes_append]; omega
    · intro hb; exact h4 (h2 hb)

theorem budgetRun_warn_of_notified (maxB : Nat)
    (items : List (OutKind × String × String)) :
    ∀ b : Budget, b.truncNotified = true →
      (budgetRun maxB b items).1.truncNotified = true ∧
        ((budgetRun maxB b items).2).countP REvent.isTruncWarn = 0 := by
  induction items with
  | nil => intro b h; exact ⟨h, rfl⟩
  | cons x rest ih =>
    intro b h
    rw [budgetRun_cons]
    rcases budgetedEmit_warn_of_notified maxB b x.1 x.2.1 x.2.2 h with ⟨h1, h2⟩
    rcases ih (budgetedEmit maxB b x.1 x.2.1 x.2.2).1 h1 with ⟨h3, h4⟩
    refine ⟨h3, ?_⟩
    rw [List.countP_append]; omega

theorem budgetRun_warn_of_fresh (maxB : Nat)
    (items : List (OutKind × String × String)) :
    ∀ b : Budget, b.truncNotified = false →
      ((budgetRun maxB b items).2).countP REvent.isTruncWarn =
        (if (budgetRun maxB b items).1.truncNotified then 1 else 0) := by
  induction items with
  | nil => intro b h; simp [budgetRun, h]
  | cons x rest ih =>
    intro b h
    rw [budgetRun_cons, List.countP_append]
    dsimp only
    have hbe := budgetedEmit_warn_of_fresh maxB b x.1 x.2.1 x.2.2 h
    cases hnb : (budgetedEmit maxB b x.1 x.2.1 x.2.2).1.truncNotified with
    | true =>
      have hbe1 : ((budgetedEmit maxB b x.1 x.2.1 x.2.2).2).countP
          REvent.isTruncWarn = 1 := by
        rw [hnb] at hbe; exact hbe.trans (if_pos rfl)
      rcases budgetRun_warn_of_notified maxB rest
        (budgetedEmit maxB b x.1 x.2.1 x.2.2).1 hnb with ⟨h3, h4⟩
      rw [h4, hbe1, h3, if_pos rfl]
    | false =>
      have hbe0 : ((budgetedEmit maxB b x.1 x.2.1 x.2.2).2).countP
          REvent.isTruncWarn = 0 := by
        rw [hnb] at hbe; exact hbe.trans (if_neg (by simp))
      rw [hbe0, ih _ hnb, Nat.zero_add]

/-! The budget path never touches terminal events: a done message still
terminates a JS run whose log traffic has exhausted the budget. -/

theorem jsStep_log_preserves (maxB tm : Nat) (s : JsState)
    (lvl : String) (args : List String) :
    (jsStep maxB tm s (Jsact.msg (SandboxData.log lvl args))).1.finished
        = s.finished ∧
      (jsStep maxB tm s (Jsact.msg (SandboxData.log lvl args))).1.listenerOn
        = s.listenerOn ∧
      (jsStep maxB tm s (Jsact.msg (SandboxData.log lvl args))).1.timerOn
        = s.timerOn := by
  simp only [jsStep, jsHandleMsg]
  split_ifs <;> simp

theorem jsGo_logs_preserve (maxB tm : Nat) (acts : List Jsact)
    (hlog : ∀ a ∈ acts, ∃ lvl args, a = Jsact.msg (SandboxData.log lvl args)) :
    ∀ s : JsState,
      (jsGo maxB tm s acts).1.finished = s.finished ∧
        (jsGo maxB tm s acts).1.listenerOn = s.listenerOn ∧
        (jsGo maxB tm s acts).1.timerOn = s.timerOn := by
  induction acts with
  | nil => intro s; exact ⟨rfl, rfl, rfl⟩
  | cons a rest ih =>
    intro s
    rcases hlog a (by simp) with ⟨lvl, args, rfl⟩
    have ih2 := ih (fun x hx => hlog x (by simp [hx]))
      (jsStep maxB tm s (Jsact.msg (SandboxData.log lvl args))).1
    rcases jsStep_log_preserves maxB tm s lvl args with ⟨h1, h2, h3⟩
    rw [jsGo_cons]
    exact ⟨ih2.1.trans h1, ih2.2.1.trans h2, ih2.2.2.trans h3⟩

/-! Server sort lemmas. -/

theorem chain'_insertDesc (x : Snippet) :
    ∀ l : List Snippet,
      List.Chain' (fun a b => b.createdAt ≤ a.createdAt) l →
      List.Chain' (fun a b => b.createdAt ≤ a.createdAt) (insertDesc x l) := by
  intro l
  induction l with
  | nil => intro _; simp [insertDesc]
  | cons y ys ih =>
    intro hch
    simp only [insertDesc]
    split_ifs with hle
    · exact List.chain'_cons.mpr ⟨hle, hch⟩
    · have hyx : x.createdAt ≤ y.createdAt := Nat.le_of_not_le hle
      have h1 := ih hch.tail
      cases ys with
      | nil =>
        simp only [insertDesc]
        exact List.chain'_cons.mpr ⟨hyx, List.chain'_singleton x⟩
      | cons z zs =>
        simp only [insertDesc] at h1 ⊢
        split_ifs at h1 ⊢ with hle2
        · exact List.chain'_cons.mpr ⟨hyx, h1⟩
        · exact List.chain'_cons.mpr ⟨(List.chain'_cons.mp hch).1, h1⟩

theorem chain'_sortDesc (l : List Snippet) :
    List.Chain' (fun a b => b.createdAt ≤ a.createdAt) (sortDesc l) := by
  induction l with
  | nil => simp [sortDesc]
  | cons x xs ih => exact chain'_insertDesc x (sortDesc xs) ih

theorem insertDesc_perm (x : Snippet) :
    ∀ l : List Snippet, (insertDesc x l).Perm (x :: l) := by
  intro l
  induction l with
  | nil => simp [insertDesc]
  | cons y ys ih =>
    simp only [insertDesc]
    split_ifs with hle
    · exact List.Perm.refl _
    · exact (ih.cons y).trans (List.Perm.swap x y ys)

theorem sortDesc_perm (l : List Snippet) : (sortDesc l).Perm l := by
  induction l with
  | nil => simp [sortDesc]
  | cons x xs ih =>
    exact (insertDesc_perm x (sortDesc xs)).trans (ih.cons x)

theorem budgetRun_no_terminal (maxB : Nat)
    (items : List (OutKind × String × String)) :
    ∀ b : Budget,
      ((budgetRun maxB b items).2).countP REvent.isTerminal = 0 := by
  induction items with
  | nil => intro b; rfl
  | cons x rest ih =>
    intro b
    rw [budgetRun_cons]
    dsimp only
    rw [List.countP_append, budgetedEmit_no_terminal, ih]

theorem jsStep_log_no_terminal (maxB tm : Nat) (s : JsState)
    (lvl : String) (args : List String) :
    ((jsStep maxB tm s (Jsact.msg (SandboxData.log lvl args))).2).countP
      JEvent.isTerminal = 0 := by
  simp only [jsStep, jsHandleMsg]
  split_ifs <;> simp [JEvent.isTerminal]

theorem jsGo_logs_no_terminal (maxB tm : Nat) (acts : List Jsact)
    (hlog : ∀ a ∈ acts, ∃ lvl args, a = Jsact.msg (SandboxData.log lvl args)) :
    ∀ s : JsState,
      ((jsGo maxB tm s acts).2).countP JEvent.isTerminal = 0 := by
  induction acts with
  | nil => intro s; rfl
  | cons a rest ih =>
    intro s
    rcases hlog a (by simp) with ⟨lvl, args, rfl⟩
    rw [jsGo_cons, List.countP_append, jsStep_log_no_terminal,
      ih (fun x hx => hlog x (by simp [hx]))]

theorem jsVirtEvents_eq (maxB tm : Nat) (acts : List Jsact) :
    jsVirtEvents maxB tm acts =
      REvent.init :: REvent.init ::
        (virtMapJsAll maxB Budget.start
          (jsGo maxB tm JsState.start acts).2).2 := by
  simp only [jsVirtEvents, jsRunnerEvents, virtMapJsAll_cons, virtMapJs]
  simp

theorem jsVirt_count_start (maxB tm : Nat) (acts : List Jsact) :
    (jsVirtEvents maxB tm acts).countP REvent.isStart =
      ((jsGo maxB tm JsState.start acts).2).countP JEvent.isStart := by
  rw [jsVirtEvents_eq, List.countP_cons, List.countP_cons,
    virtMapJsAll_count_start]
  simp [REvent.isStart]

theorem jsVirt_count_terminal (maxB tm : Nat) (acts : List Jsact) :
    (jsVirtEvents maxB tm acts).countP REvent.isTerminal =
      ((jsGo maxB tm JsState.start acts).2).countP JEvent.isTerminal := by
  rw [jsVirtEvents_eq, List.countP_cons, List.countP_cons,
    virtMapJsAll_count_terminal]
  simp [REvent.isTerminal]

/-- C1 (amended).  The stream of a runCode invocation: the first event is
always init, but the JS branch re-emits the inner runner's init, so
JS-family runs deliver exactly two init events and Python and unsupported
runs exactly one.  At most one start is delivered provided the isolation
context posts at most one start message.  JS-family runs deliver at most
one terminal event (done/error/timeout) and nothing follows it — but a run
cancelled by stop() before a terminal event may deliver none.  Python runs
deliver at most one of done/timeout, never both; done is emitted when the
run submission completes, so error/result/output events may still follow
it.  Unsupported languages yield exactly init, error, done with no
isolation context. -/
theorem c1_event_stream_amended :
    (∀ maxB tm acts, ∃ rest,
        jsVirtEvents maxB tm acts = REvent.init :: REvent.init :: rest ∧
          rest.countP REvent.isInit = 0) ∧
    (∀ maxB tm (acts : List Jsact), acts.countP Jsact.isStartMsg ≤ 1 →
        (jsVirtEvents maxB tm acts).countP REvent.isStart ≤ 1) ∧
    (∀ maxB tm acts,
        (jsVirtEvents maxB tm acts).countP REvent.isTerminal ≤ 1) ∧
    (∀ maxB tm acts,
        suffixAfterFirst REvent.isTerminal (jsVirtEvents maxB tm acts) = []) ∧
    (∀ maxB tm acts, ∃ rest,
        pyVirtEvents maxB tm acts = REvent.init :: rest ∧
          rest.countP REvent.isInit = 0) ∧
    (∀ maxB tm (acts : List PyAct), acts.countP PyAct.isStartMsg ≤ 1 →
        (pyVirtEvents maxB tm acts).countP REvent.isStart ≤ 1) ∧
    (∀ maxB tm acts,
        (pyVirtEvents maxB tm acts).countP REvent.isDone +
          (pyVirtEvents maxB tm acts).countP REvent.isTimeout ≤ 1) ∧
    (∀ language maxB tm ja pa, language ∉ jsLangs → language ∉ pyLangs →
        runCodeModel language maxB tm ja pa =
          ([REvent.init,
            REvent.error ("Unsupported language: " ++ language) none,
            REvent.done], 0)) := by
  have hcons : ∀ (p : REvent → Bool) (x : REvent) (l : List REvent),
      p x = false → suffixAfterFirst p (x :: l) = suffixAfterFirst p l := by
    intro p x l hx
    simp [suffixAfterFirst, hx]
  have hsuffix : ∀ maxB tm acts,
      suffixAfterFirst REvent.isTerminal (jsVirtEvents maxB tm acts) = [] := by
    intro maxB tm acts
    rw [jsVirtEvents_eq, hcons _ _ _ rfl, hcons _ _ _ rfl]
    exact virtMapJsAll_terminal_suffix maxB _ Budget.start
      (jsGo_terminal_suffix maxB tm acts JsState.start)
  refine ⟨?_, ?_, ?_, hsuffix, ?_, ?_, ?_, ?_⟩
  · intro maxB tm acts
    exact ⟨(virtMapJsAll maxB Budget.start
        (jsGo maxB tm JsState.start acts).2).2,
      jsVirtEvents_eq maxB tm acts,
      by rw [virtMapJsAll_count_init, jsGo_no_init]⟩
  · intro maxB tm acts h
    rw [jsVirt_count_start]
    calc ((jsGo maxB tm JsState.start acts).2).countP JEvent.isStart
        ≤ acts.countP Jsact.isStartMsg := jsGo_start_le maxB tm acts _
      _ ≤ 1 := h
  · intro maxB tm acts
    exact countP_le_one_of_suffixAfterFirst_nil _ _ (hsuffix maxB tm acts)
  · intro maxB tm acts
    exact ⟨(pyGo maxB tm PyState.start acts).2, rfl,
      pyGo_no_init maxB tm acts PyState.start⟩
  · intro maxB tm acts h
    have h1 : (pyVirtEvents maxB tm acts).countP REvent.isStart =
        ((pyGo maxB tm PyState.start acts).2).countP REvent.isStart := by
      simp [pyVirtEvents, List.countP_cons, REvent.isStart]
    rw [h1]
    calc ((pyGo maxB tm PyState.start acts).2).countP REvent.isStart
        ≤ acts.countP PyAct.isStartMsg := pyGo_start_le maxB tm acts _
      _ ≤ 1 := h
  · intro maxB tm acts
    have h1 : (pyVirtEvents maxB tm acts).countP REvent.isDone =
        ((pyGo maxB tm PyState.start acts).2).countP REvent.isDone := by
      simp [pyVirtEvents, List.countP_cons, REvent.isDone]
    have h2 : (pyVirtEvents maxB tm acts).countP REvent.isTimeout =
        ((pyGo maxB tm PyState.start acts).2).countP REvent.isTimeout := by
      simp [pyVirtEvents, List.countP_cons, REvent.isTimeout]
    rw [h1, h2]
    exact pyGo_DT_le_one maxB tm acts PyState.start
  · intro language maxB tm ja pa h1 h2
    simp only [runCodeModel]
    rw [if_neg h1, if_neg h2]

/-- C1 counterexample.  The claim as stated fails on the code: a JS run
delivers two init events (runCode emits init itself and re-emits the inner
runner's init); a Python run whose code raises delivers done before the
error event, so two terminal events occur and the terminal event is not
last; a JS run cancelled by stop() before completion delivers no terminal
event at all. -/
theorem c1_event_stream_counterexample :
    (jsVirtEvents 65536 5000 [Jsact.msg SandboxData.start,
        Jsact.msg SandboxData.done]).countP REvent.isInit = 2 ∧
    pyVirtEvents 65536 5000 [PyAct.ready, PyAct.wmsg WMsg.start,
        PyAct.wmsg (WMsg.error "boom")] =
      [REvent.init, REvent.done, REvent.start, REvent.error "boom" none] ∧
    (pyVirtEvents 65536 5000 [PyAct.ready, PyAct.wmsg WMsg.start,
        PyAct.wmsg (WMsg.error "boom")]).countP REvent.isTerminal = 2 ∧
    (jsVirtEvents 65536 5000 [Jsact.stop]).countP REvent.isTerminal = 0 := by
  exact ⟨rfl, rfl, rfl, rfl⟩

/-- C1 witness: the amended stream theorem applied at concrete runs. -/
theorem c1_event_stream_amended_witness :
    (jsVirtEvents 65536 5000 [Jsact.msg SandboxData.start,
        Jsact.msg SandboxData.done]).countP REvent.isStart ≤ 1 ∧
    (pyVirtEvents 65536 5000 [PyAct.ready, PyAct.wmsg WMsg.start]).countP
        REvent.isStart ≤ 1 ∧
    runCodeModel "ruby" 65536 5000 [] [] =
      ([REvent.init, REvent.error ("Unsupported language: " ++ "ruby") none,
        REvent.done], 0) := by
  obtain ⟨-, h2, -, -, -, h6, -, h8⟩ := c1_event_stream_amended
  exact ⟨h2 65536 5000 _ (by decide), h6 65536 5000 _ (by decide),
    h8 "ruby" 65536 5000 [] [] (by decide) (by decide)⟩

/-- C2 (code bug).  The Python branch treats resolution of the executor's
run() promise — which resolves as soon as the run message is posted, not
when execution finishes — as completion: once the worker is ready and the
code is submitted, the finally callback sets finished, clears the
host-side timer and emits done.  For code that never returns (an infinite
loop) the timer therefore never fires: the stream is init, done, start
with no timeout event, and the executor is never disposed, contradicting
the claim that the timer fires within timeoutMs and disposes the
executor. -/
theorem c2_python_timeout_never_fires :
    pyVirtEvents 65536 5000
        [PyAct.ready, PyAct.wmsg WMsg.start, PyAct.timerFire] =
      [REvent.init, REvent.done, REvent.start] ∧
    (pyVirtEvents 65536 5000
        [PyAct.ready, PyAct.wmsg WMsg.start, PyAct.timerFire]).countP
      REvent.isTimeout = 0 ∧
    (pyVirtFinal 65536 5000
        [PyAct.ready, PyAct.wmsg WMsg.start, PyAct.timerFire]).workerAlive
      = true ∧
    (pyVirtFinal 65536 5000
        [PyAct.ready, PyAct.wmsg WMsg.start, PyAct.timerFire]).timerOn
      = false := by
  exact ⟨rfl, rfl, rfl, rfl⟩

/-- C3 (amended).  The shared budget of runCode: the cumulative UTF-8
bytes of forwarded stdout/stderr output never exceed maxLogBytes; at most
one truncation warning is emitted, and exactly one is emitted precisely
when some output failed to fit; the budget path emits no terminal events;
and a done message still terminates a JS run whose traffic was all console
logs, however large.  Unlike the claim, suppression is per-output, not
sticky: a later output that fits the remaining budget is still
forwarded. -/
theorem c3_output_budget_amended :
    (∀ maxB (items : List (OutKind × String × String)),
        outBytes ((budgetRun maxB Budget.start items).2) ≤ maxB) ∧
    (∀ maxB (items : List (OutKind × String × String)),
        ((budgetRun maxB Budget.start items).2).countP REvent.isTruncWarn
          ≤ 1) ∧
    (∀ maxB (items : List (OutKind × String × String)),
        (((budgetRun maxB Budget.start items).2).countP REvent.isTruncWarn = 1
          ↔ (budgetRun maxB Budget.start items).1.truncNotified = true)) ∧
    (∀ maxB (items : List (OutKind × String × String)),
        ((budgetRun maxB Budget.start items).2).countP REvent.isTerminal
          = 0) ∧
    (∀ maxB tm (acts : List Jsact),
        (∀ a ∈ acts, ∃ lvl args, a = Jsact.msg (SandboxData.log lvl args)) →
        (jsVirtEvents maxB tm
            (acts ++ [Jsact.msg SandboxData.done])).countP REvent.isTerminal
          = 1) := by
  have hwarn : ∀ maxB (items : List (OutKind × String × String)),
      ((budgetRun maxB Budget.start items).2).countP REvent.isTruncWarn =
        (if (budgetRun maxB Budget.start items).1.truncNotified then 1
         else 0) := by
    intro maxB items
    exact budgetRun_warn_of_fresh maxB items Budget.start rfl
  refine ⟨?_, ?_, ?_, ?_, ?_⟩
  · intro maxB items
    rcases budgetRun_total maxB items Budget.start with ⟨h1, h2⟩
    have h3 := h2 (Nat.zero_le maxB)
    have h4 : (Budget.start).total = 0 := rfl
    omega
  · intro maxB items
    rw [hwarn]
    split_ifs <;> omega
  · intro maxB items
    rw [hwarn]
    split_ifs with h
    · simp [h]
    · simp [h]
  · intro maxB items
    exact budgetRun_no_terminal maxB items Budget.start
  · intro maxB tm acts hlog
    rw [jsVirt_count_terminal]
    have happ := jsGo_append maxB tm acts [Jsact.msg SandboxData.done]
      JsState.start
    rw [happ, List.countP_append]
    rw [jsGo_logs_no_terminal maxB tm acts hlog JsState.start]
    rcases jsGo_logs_preserve maxB tm acts hlog JsState.start with ⟨hf, hL, hT⟩
    have hstart : (JsState.start).finished = false := rfl
    have hstartL : (JsState.start).listenerOn = true := rfl
    have hdone : ((jsGo maxB tm (jsGo maxB tm JsState.start acts).1
        [Jsact.msg SandboxData.done]).2).countP JEvent.isTerminal = 1 := by
      rw [jsGo_cons]
      have hstep : (jsStep maxB tm (jsGo maxB tm JsState.start acts).1
          (Jsact.msg SandboxData.done)).2 = [JEvent.done] := by
        simp only [jsStep, jsHandleMsg]
        rw [if_pos (hL.trans hstartL), if_neg]
        rw [hf.trans hstart]
        simp
      rw [List.countP_append, hstep]
      rfl
    rw [hdone]

/-- C3 counterexample.  With maxLogBytes = 4, a five-byte output triggers
the single truncation warning, yet a following one-byte output is still
forwarded as a stdout event: suppression is not sticky, contradicting the
claim that no further output events of any kind are forwarded after the
warning. -/
theorem c3_output_budget_counterexample :
    (budgetRun 4 Budget.start
        [(OutKind.stdout, "aaaaa", "info"),
         (OutKind.stdout, "a", "info")]).2 =
      [REvent.log "warn" "[output truncated]", REvent.stdout "a" "info"] ∧
    ((budgetRun 4 Budget.start
        [(OutKind.stdout, "aaaaa", "info"),
         (OutKind.stdout, "a", "info")]).2).countP REvent.isOutput = 1 := by
  exact ⟨rfl, rfl⟩

/-- C3 witness: the amended budget theorem applied to a concrete run. -/
theorem c3_output_budget_amended_witness :
    (jsVirtEvents 8 5000
        ([Jsact.msg (SandboxData.log "log" ["aaaaaaaaaaaa"])] ++
          [Jsact.msg SandboxData.done])).countP REvent.isTerminal = 1 := by
  obtain ⟨-, -, -, -, h5⟩ := c3_output_budget_amended
  exact h5 8 5000 [Jsact.msg (SandboxData.log "log" ["aaaaaaaaaaaa"])]
    (by intro a ha
        simp at ha
        exact ⟨"log", ["aaaaaaaaaaaa"], ha⟩)

/-- C4 (confirmed).  Calling stop() before any terminal event has fired
guarantees no further events for the run are delivered after stop()
returns, in both the JS branch (stop clears the watchdog and removes the
message listener) and the Python branch (stop clears the timer,
unregisters the listener and disposes the worker): the stream of a
happening list extended past the stop equals the stream truncated at the
stop. -/
theorem c4_stop_silences_run :
    (∀ maxB tm (pre post : List Jsact),
        (jsVirtEvents maxB tm (pre ++ [Jsact.stop])).countP
            REvent.isTerminal = 0 →
        jsVirtEvents maxB tm (pre ++ Jsact.stop :: post) =
          jsVirtEvents maxB tm (pre ++ [Jsact.stop])) ∧
    (∀ maxB tm (pre post : List PyAct),
        (pyVirtEvents maxB tm (pre ++ [PyAct.stop])).countP
            REvent.isTerminal = 0 →
        pyVirtEvents maxB tm (pre ++ PyAct.stop :: post) =
          pyVirtEvents maxB tm (pre ++ [PyAct.stop])) := by
  constructor
  · intro maxB tm pre post _
    have hgo : (jsGo maxB tm JsState.start (pre ++ Jsact.stop :: post)).2 =
        (jsGo maxB tm JsState.start (pre ++ [Jsact.stop])).2 := by
      have hsplit : pre ++ Jsact.stop :: post =
          (pre ++ [Jsact.stop]) ++ post := by simp
      rw [hsplit, jsGo_append]
      have hs := jsGo_append maxB tm pre [Jsact.stop] JsState.start
      have hL : (jsGo maxB tm JsState.start (pre ++ [Jsact.stop])).1.listenerOn
          = false := by
        rw [hs]
        exact (jsStep_stop maxB tm (jsGo maxB tm JsState.start pre).1).1
      have hT : (jsGo maxB tm JsState.start (pre ++ [Jsact.stop])).1.timerOn
          = false := by
        rw [hs]
        exact (jsStep_stop maxB tm (jsGo maxB tm JsState.start pre).1).2.1
      rw [jsGo_of_stopped maxB tm post _ hL hT]
      simp
    simp only [jsVirtEvents, jsRunnerEvents]
    rw [hgo]
  · intro maxB tm pre post _
    have hgo : (pyGo maxB tm PyState.start (pre ++ PyAct.stop :: post)).2 =
        (pyGo maxB tm PyState.start (pre ++ [PyAct.stop])).2 := by
      have hsplit : pre ++ PyAct.stop :: post =
          (pre ++ [PyAct.stop]) ++ post := by simp
      rw [hsplit, pyGo_append]
      have hs := pyGo_append maxB tm pre [PyAct.stop] PyState.start
      have hW : (pyGo maxB tm PyState.start
          (pre ++ [PyAct.stop])).1.workerAlive = false := by
        rw [hs]; rfl
      have hT : (pyGo maxB tm PyState.start
          (pre ++ [PyAct.stop])).1.timerOn = false := by
        rw [hs]; rfl
      rw [pyGo_of_dead maxB tm post _ hW hT]
      simp
    simp only [pyVirtEvents]
    rw [hgo]

/-- C4 witness: the silencing theorem applied to concrete runs stopped
after their start event, with a terminal-bearing message arriving late. -/
theorem c4_stop_silences_run_witness :
    jsVirtEvents 65536 5000
        ([Jsact.msg SandboxData.start] ++ Jsact.stop ::
          [Jsact.msg SandboxData.done]) =
      jsVirtEvents 65536 5000 ([Jsact.msg SandboxData.start] ++
        [Jsact.stop]) ∧
    pyVirtEvents 65536 5000
        ([PyAct.wmsg WMsg.start] ++ PyAct.stop :: [PyAct.ready]) =
      pyVirtEvents 65536 5000 ([PyAct.wmsg WMsg.start] ++ [PyAct.stop]) := by
  exact ⟨c4_stop_silences_run.1 65536 5000 [Jsact.msg SandboxData.start]
      [Jsact.msg SandboxData.done] rfl,
    c4_stop_silences_run.2 65536 5000 [PyAct.wmsg WMsg.start]
      [PyAct.ready] rfl⟩

/-- C5 (amended).  Token filtering: the host wrapper drops exactly the
messages that carry a token different from the current session token —
messages with no token at all pass the filter and are dispatched to every
listener; the worker drops run messages whose token is missing or does not
match the current token (including when no token was ever installed). -/
theorem c5_token_filter_amended :
    (∀ session t n m, t ≠ session →
        hostDispatch session (some t) n m = []) ∧
    (∀ session n m, hostDispatch session none n m = List.replicate n m) ∧
    (∀ cur, workerRunAccepts cur none = false) ∧
    (∀ t, workerRunAccepts none (some t) = false) ∧
    (∀ c t, t ≠ c → workerRunAccepts (some c) (some t) = false) := by
  refine ⟨?_, ?_, ?_, ?_, ?_⟩
  · intro session t n m h
    simp [hostDispatch, hostAccepts, h]
  · intro session n m
    simp [hostDispatch, hostAccepts]
  · intro cur
    cases cur <;> rfl
  · intro t; rfl
  · intro c t h
    simp [workerRunAccepts, h]

/-- C5 counterexample.  A worker message carrying no token at all passes
the host filter (the source guard is msg.token AND msg.token
different-from this.token, and a missing token is falsy): it is dispatched
to the registered listener and surfaces as a stdout event, contradicting
the claim that token-less messages are silently dropped. -/
theorem c5_token_filter_counterexample :
    hostAccepts "abc.123" none = true ∧
    hostDispatch "abc.123" none 1 (WMsg.stdout "x") = [WMsg.stdout "x"] ∧
    (pyListen 65536 Budget.start (WMsg.stdout "x")).2 =
      [REvent.stdout "x" "info"] := by
  exact ⟨rfl, rfl, rfl⟩

/-- C5 witness: the filter theorem applied to a concrete stale token and
a concrete token-less run message. -/
theorem c5_token_filter_amended_witness :
    hostDispatch "abc.123" (some "old.99") 2 (WMsg.stdout "x") = [] ∧
    workerRunAccepts (some "abc.123") (some "old.99") = false := by
  exact ⟨c5_token_filter_amended.1 "abc.123" "old.99" 2 (WMsg.stdout "x")
      (by decide),
    c5_token_filter_amended.2.2.2.2 "abc.123" "old.99" (by decide)⟩

/-- C6 (confirmed).  For a language outside
javascript/js/typescript/ts/python/py, runCode emits exactly init, an
error naming the unsupported language, and done; no isolation context is
created, and the result is independent of any later happenings — the
returned stop is a no-op. -/
theorem c6_unsupported_language :
    ∀ language maxB tm (ja : List Jsact) (pa : List PyAct),
      language ∉ jsLangs → language ∉ pyLangs →
      runCodeModel language maxB tm ja pa =
        ([REvent.init,
          REvent.error ("Unsupported language: " ++ language) none,
          REvent.done], 0) := by
  intro language maxB tm ja pa h1 h2
  simp only [runCodeModel]
  rw [if_neg h1, if_neg h2]

/-- C6 witness: the unsupported-language theorem applied at ruby. -/
theorem c6_unsupported_language_witness :
    runCodeModel "ruby" 65536 5000 [Jsact.stop] [PyAct.stop] =
      ([REvent.init,
        REvent.error ("Unsupported language: " ++ "ruby") none,
        REvent.done], 0) := by
  exact c6_unsupported_language "ruby" 65536 5000 [Jsact.stop] [PyAct.stop]
    (by decide) (by decide)

/-- C7 (amended).  For every accepted run message the worker installs the
output bridge, posts start, installs the stdout/stderr redirection — in
that order, start before the redirection, not after as the claim states —
streams the writes, and finally posts exactly one of result or error: the
final value coerced to text (empty string for null/undefined) as result,
or the exception message as error. -/
theorem c7_worker_run_amended :
    ∀ o : EvalOutcome,
      ((runHandler o).countP WorkerAction.isStart = 1) ∧
      ((runHandler o).findIdx WorkerAction.isStart <
        (runHandler o).findIdx WorkerAction.isInstall) ∧
      ((runHandler o).countP WorkerAction.isResult +
        (runHandler o).countP WorkerAction.isError = 1) ∧
      (o.res = Except.ok none →
        (runHandler o).getLast? = some (WorkerAction.postResult "")) ∧
      (∀ v, o.res = Except.ok (some v) →
        (runHandler o).getLast? = some (WorkerAction.postResult v)) ∧
      (∀ m, o.res = Except.error m →
        (runHandler o).getLast? = some (WorkerAction.postError m)) := by
  intro o
  have hwrites : ∀ (p : WorkerAction → Bool),
      (∀ w : StdWrite, p w.action = false) →
      (o.writes.map StdWrite.action).countP p = 0 := by
    intro p hp
    rw [List.countP_eq_zero]
    intro x hx
    rcases List.mem_map.mp hx with ⟨w, _, rfl⟩
    simp [hp w]
  have hlast : ∀ fin : WorkerAction,
      ([WorkerAction.setBridge, WorkerAction.postStart,
          WorkerAction.installRedirect] ++
        o.writes.map StdWrite.action ++ [fin]).getLast? = some fin := by
    intro fin
    rw [List.getLast?_concat]
  refine ⟨?_, ?_, ?_, ?_, ?_, ?_⟩
  · simp only [runHandler, ← List.append_assoc, List.countP_append]
    rw [hwrites _ (by intro w; cases w <;> rfl)]
    have h1 : ([WorkerAction.setBridge, WorkerAction.postStart,
        WorkerAction.installRedirect] : List WorkerAction).countP
        WorkerAction.isStart = 1 := rfl
    rw [h1]
    rcases o.res with m | v
    · rfl
    · cases v <;> rfl
  · exact Nat.lt_of_sub_eq_succ rfl
  · simp only [runHandler, ← List.append_assoc, List.countP_append]
    rw [hwrites _ (by intro w; cases w <;> rfl),
      hwrites _ (by intro w; cases w <;> rfl)]
    have h1 : ([WorkerAction.setBridge, WorkerAction.postStart,
        WorkerAction.installRedirect] : List WorkerAction).countP
        WorkerAction.isResult = 0 := rfl
    have h2 : ([WorkerAction.setBridge, WorkerAction.postStart,
        WorkerAction.installRedirect] : List WorkerAction).countP
        WorkerAction.isError = 0 := rfl
    rw [h1, h2]
    rcases o.res with m | v
    · rfl
    · cases v <;> rfl
  · intro h
    simp only [runHandler, h]
    exact hlast _
  · intro v h
    simp only [runHandler, h]
    exact hlast _
  · intro m h
    simp only [runHandler, h]
    exact hlast _

/-- C7 counterexample.  On a concrete accepted run the worker posts start
at position 1 and installs the redirection at position 2: the claim's
requirement that the redirection is installed before start is posted is
false on the code. -/
theorem c7_worker_run_counterexample :
    runHandler { writes := [], res := Except.ok (some "y") } =
      [WorkerAction.setBridge, WorkerAction.postStart,
       WorkerAction.installRedirect, WorkerAction.postResult "y"] ∧
    ¬((runHandler { writes := [], res := Except.ok (some "y") }).findIdx
          WorkerAction.isInstall <
        (runHandler { writes := [], res := Except.ok (some "y") }).findIdx
          WorkerAction.isStart) := by
  constructor
  · rfl
  · intro h
    exact absurd h (by decide)

/-- C7 witness: the amended worker theorem applied at a concrete outcome
with one stdout write and a string result. -/
theorem c7_worker_run_amended_witness :
    (runHandler ⟨[StdWrite.out "x"], Except.ok (some "y")⟩).countP
        WorkerAction.isStart = 1 ∧
    (runHandler ⟨[StdWrite.out "x"], Except.ok (some "y")⟩).getLast? =
      some (WorkerAction.postResult "y") := by
  exact ⟨(c7_worker_run_amended _).1,
    (c7_worker_run_amended _).2.2.2.2.1 "y" rfl⟩

/-- C8 (confirmed).  The snippet service: POST rejects a non-string code
(the request field is none) or a code longer than 200000 characters with
status 400 and an unchanged store, and otherwise stores the snippet and
returns the generated id with status 200; GET lists the snippets sorted
newest-first (by createdAt, descending) capped at 100 entries, the sort
being a permutation of the store; GET by id answers 404 when no stored
snippet has the requested id. -/
theorem c8_snippet_service :
    (∀ (store : Store) (language metaV newId : String) (now : Nat),
        postSnippet store none language metaV newId now =
          (store, 400, none)) ∧
    (∀ (store : Store) (c language metaV newId : String) (now : Nat),
        200000 < c.length →
        postSnippet store (some c) language metaV newId now =
          (store, 400, none)) ∧
    (∀ (store : Store) (c language metaV newId : String) (now : Nat),
        c.length ≤ 200000 →
        postSnippet store (some c) language metaV newId now =
          (store ++ [⟨newId, c, language, metaV, now⟩], 200, some newId)) ∧
    (∀ store : Store,
        List.Chain' (fun a b => b.createdAt ≤ a.createdAt)
            (listSnippets store) ∧
          (listSnippets store).length ≤ 100 ∧
          (sortDesc store).Perm store) ∧
    (∀ (store : Store) (id : String),
        (∀ s ∈ store, s.id ≠ id) → getSnippetStatus store id = 404) := by
  refine ⟨?_, ?_, ?_, ?_, ?_⟩
  · intro store language metaV newId now
    rfl
  · intro store c language metaV newId now h
    simp only [postSnippet]
    rw [if_pos h]
  · intro store c language metaV newId now h
    simp only [postSnippet]
    rw [if_neg (Nat.not_lt.mpr h)]
  · intro store
    refine ⟨(chain'_sortDesc store).take 100, ?_, sortDesc_perm store⟩
    have h : (listSnippets store).length = min 100 (sortDesc store).length := by
      simp [listSnippets]
    omega
  · intro store id h
    simp only [getSnippetStatus, getSnippet]
    rw [List.find?_eq_none.mpr]
    intro x hx
    simp [h x hx]

/-- C8 witness: the service theorem applied to an oversized code, a small
code and a lookup in the empty store. -/
theorem c8_snippet_service_witness :
    postSnippet [] (some (String.mk (List.replicate 200001 'a')))
        "python" "m" "id1" 5 = ([], 400, none) ∧
    postSnippet [] (some "print(1)") "python" "m" "id1" 5 =
      ([⟨"id1", "print(1)", "python", "m", 5⟩], 200, some "id1") ∧
    getSnippetStatus [] "zzz" = 404 := by
  have hlen : 200000 < (String.mk (List.replicate 200001 'a')).length := by
    have h : (String.mk (List.replicate 200001 'a')).length = 200001 := by
      show (List.replicate 200001 'a').length = 200001
      exact List.length_replicate 200001 'a'
    omega
  exact ⟨c8_snippet_service.2.1 [] _ "python" "m" "id1" 5 hlen,
    c8_snippet_service.2.2.1 [] "print(1)" "python" "m" "id1" 5 (by decide),
    c8_snippet_service.2.2.2.2 [] "zzz" (by simp)⟩

/-- C9 (confirmed).  Option defaults of runCode: an unspecified timeoutMs
resolves to 5000 milliseconds and an unspecified maxLogBytes resolves to
64 * 1024 = 65536 bytes. -/
theorem c9_option_defaults :
    ∀ o : RunOptions,
      (o.timeoutMs = none → resolveTimeoutMs o = 5000) ∧
      (o.maxLogBytes = none → resolveMaxLogBytes o = 65536) := by
  intro o
  constructor
  · intro h
    simp [resolveTimeoutMs, h]
  · intro h
    simp only [resolveMaxLogBytes, h, Option.getD_none]

/-- C9 witness: the defaults theorem applied to an options object with
every field unspecified. -/
theorem c9_option_defaults_witness :
    resolveTimeoutMs ⟨none, none, none, none, none⟩ = 5000 ∧
    resolveMaxLogBytes ⟨none, none, none, none, none⟩ = 65536 := by
  exact ⟨(c9_option_defaults _).1 rfl, (c9_option_defaults _).2 rfl⟩

/-- C10 (confirmed).  Every event delivery and listener invocation is
wrapped in a try/catch that swallows the exception: a throwing onEvent
callback never propagates out (emitGuarded always returns normally), a
whole event stream is still delivered in full whatever the callback
throws, and the executor listener dispatch invokes every listener and
returns normally. -/
theorem c10_callback_exception_isolation :
    (∀ (onEvent : REvent → Except String Unit) (e : REvent),
        emitGuarded onEvent e = Except.ok ()) ∧
    (∀ (onEvent : REvent → Except String Unit) (evs : List REvent),
        deliverAll onEvent evs = (evs, Except.ok ())) ∧
    (∀ (cbs : List (WMsg → Except String Unit)) (m : WMsg),
        dispatchListeners cbs m = Except.ok ()) := by
  have h1 : ∀ (onEvent : REvent → Except String Unit) (e : REvent),
      emitGuarded onEvent e = Except.ok () := by
    intro onEvent e
    cases h : onEvent e <;> simp [emitGuarded, h]
  refine ⟨h1, ?_, ?_⟩
  · intro onEvent evs
    induction evs with
    | nil => rfl
    | cons e rest ih =>
      simp [deliverAll, ih]
  · intro cbs m
    induction cbs with
    | nil => rfl
    | cons c rest ih =>
      simp [dispatchListeners, ih]

end CMV
